import Mathlib

/-
Verification of the PoseSpline repository's `VectorSpaceSpline` and
`okvis` time utilities against their natural-language specification.

Shallow embedding conventions:
* C++ `double` time/value arithmetic is embedded as exact rationals (ℚ);
  machine-integer casts are made explicit as `% 2^32` / `% 2^64` wraps.
* `std::vector<double*> mControlPointsParameter` is embedded as a list of
  control-point values (`Vec3`), a handle to point `i`'s storage being the
  value at index `i`; `std::map<double, Eigen::Vector3d> mSampleValues` is
  embedded as a key-sorted association list.
* Fallible operations (`std::vector::at`, batch initialization) return
  `Option`.
* Method bodies absent from the repository sources (only declared in
  `VectorSpaceSpline.hpp`) are modelled from the spec; each such
  definition carries a doc comment starting `Modelled from the spec:`.
-/

namespace PoseSpline

/-- A 3-vector value (`Eigen::Vector3d`), embedded with exact coordinates. -/
def Vec3 : Type := ℚ × ℚ × ℚ

instance : DecidableEq Vec3 := by
  unfold Vec3
  infer_instance

/-- The zero vector. -/
def zeroVec : Vec3 := (0, 0, 0)

/-- State of a `ze::VectorSpaceSpline` instance
(`VectorSpaceSpline.hpp`, lines 11-42): spline order, uniform knot
interval `mTimeInterval`, first-knot time `t0` (the knot axis is
`t0 + i * interval`, spec §3/§4.1), the control-point store
`mControlPointsParameter` and the sample map `mSampleValues`. -/
structure SplineState where
  splineOrder : Nat
  timeInterval : ℚ
  t0 : ℚ
  controlPoints : List Vec3
  samples : List (ℚ × Vec3)
deriving DecidableEq

/-- Source `getControlPointNum` (`VectorSpaceSpline.hpp` lines 29-31):
`mControlPointsParameter.size()`. -/
def getControlPointNum (s : SplineState) : Nat :=
  s.controlPoints.length

/-- Source `getControlPoint(i)` (`VectorSpaceSpline.hpp` lines 33-35):
`mControlPointsParameter.at(i)`; `at` is bounds-checked and fails
(throws `std::out_of_range`) for `i ≥ size()`, embedded as `none`. -/
def getControlPoint (s : SplineState) (i : Nat) : Option Vec3 :=
  s.controlPoints.get? i

/-- Maximum evaluable time: with `n` control points at knots
`t0 + i*Δ` and order `k`, the evaluable span ends at the current knot
span minus the order's required look-ahead (spec §4.3):
`t0 + (n - k) * Δ`. -/
def maxEvaluableTime (s : SplineState) : ℚ :=
  s.t0 + ((s.controlPoints.length : ℚ) - (s.splineOrder : ℚ)) * s.timeInterval

/-- Minimum evaluable time: the first knot (spec §4.1: no re-basing of
`t0`). -/
def minEvaluableTime (s : SplineState) : ℚ :=
  s.t0

/-- Modelled from the spec: the body of
`VectorSpaceSpline::isTsEvaluable` (declared `VectorSpaceSpline.hpp`
line 20, body not in the sources). Spec §4.1: true iff `ts` lies within
the closed sub-interval of the knot axis currently bracketed by enough
control points for the active spline order. -/
def isTsEvaluable (s : SplineState) (ts : ℚ) : Bool :=
  decide (s.splineOrder ≤ s.controlPoints.length) &&
    decide (minEvaluableTime s ≤ ts) && decide (ts ≤ maxEvaluableTime s)

/-- Sorted insertion keyed by time, embedding insertion into the
`std::map<double, Eigen::Vector3d> mSampleValues`. -/
def insertSample : List (ℚ × Vec3) → ℚ → Vec3 → List (ℚ × Vec3)
  | [], t, v => [(t, v)]
  | (t', v') :: rest, t, v =>
    if t < t' then (t, v) :: (t', v') :: rest
    else if t = t' then (t, v) :: rest
    else (t', v') :: insertSample rest t v

/-- Value of the most recent (largest-time) sample, or zero when no
sample has been recorded. -/
def lastSampleValue (l : List (ℚ × Vec3)) : Vec3 :=
  match l.getLast? with
  | some p => p.2
  | none => zeroVec

/-- Modelled from the spec: the body of
`VectorSpaceSpline::initialNewControlPoint` (declared
`VectorSpaceSpline.hpp` line 37, body not in the sources). Spec §4.2:
appends one new control point, seeded by a deterministic subclass
policy; the policy adopted here is the spec's first listed choice,
"the most recent sample's value" (zero when no sample exists). -/
def initialNewControlPoint (s : SplineState) : SplineState :=
  { s with controlPoints := s.controlPoints ++ [lastSampleValue s.samples] }

/-- Number of control points that must be appended so that `t` becomes
evaluable (knot index covering `t` is reached), per spec §4.3. -/
def numNewControlPoints (s : SplineState) (t : ℚ) : Nat :=
  if t ≤ maxEvaluableTime s then 0
  else (Int.ceil ((t - maxEvaluableTime s) / s.timeInterval)).toNat

/-- Modelled from the spec: the body of `VectorSpaceSpline::addSample`
(declared `VectorSpaceSpline.hpp` line 22, body not in the sources).
Spec §4.3: records the observation in the sample map keyed by `t`;
if `t` lies beyond the current knot span minus the order's look-ahead,
extends the control-point store by invoking `initialNewControlPoint`
as many times as needed to reach a knot index covering `t`; samples
earlier than the current span start are rejected (forward-only). -/
def addSample (s : SplineState) (t : ℚ) (v : Vec3) : SplineState :=
  if t < s.t0 then s
  else
    let s1 : SplineState := { s with samples := insertSample s.samples t v }
    initialNewControlPoint^[numNewControlPoints s1 t] s1

/-- Modelled from the spec: the body of
`VectorSpaceSpline::initialSplineKnot` (declared
`VectorSpaceSpline.hpp` line 25, body not in the sources). Spec §4.3:
seeds a single knot-aligned starting point at `t`, bootstrapping an
empty spline before streaming samples via `addSample`; the bootstrap
control point carries the deterministic seed value (zero, no sample
being available). -/
def initialSplineKnot (s : SplineState) (t : ℚ) : SplineState :=
  { s with t0 := t, controlPoints := [zeroVec] }

/-- Absolute value of a time difference (`std::abs` on `double`),
embedded as an executable rational function. -/
def absQ (x : ℚ) : ℚ :=
  if x < 0 then -x else x

/-- Value of the sample nearest to knot time `τ` (ties broken toward
the earlier sample of an ascending batch, which is encountered first
and kept under the strict comparison), per spec §4.3. -/
def nearestSampleValue (Meas : List (ℚ × Vec3)) (τ : ℚ) : Vec3 :=
  match Meas with
  | [] => zeroVec
  | m :: rest =>
    (rest.foldl
      (fun best p => if absQ (p.1 - τ) < absQ (best.1 - τ) then p else best) m).2

/-- Modelled from the spec: the body of
`VectorSpaceSpline::initialSpline` (declared `VectorSpaceSpline.hpp`
line 23, body not in the sources). Spec §4.3: given an ordered batch,
determines the time span, sets up the knot axis starting at the first
sample's timestamp, and seeds one control point per knot across the
span (enough knots that the full span is evaluable for the active
order), each initialized from the sample nearest that knot; an empty
batch fails cleanly, producing no state. -/
def initialSpline (s : SplineState) (Meas : List (ℚ × Vec3)) :
    Option SplineState :=
  match Meas with
  | [] => none
  | (tf, vf) :: rest =>
    let tl : ℚ := (((tf, vf) :: rest).getLastD (tf, vf)).1
    let n : Nat := s.splineOrder + (Int.ceil ((tl - tf) / s.timeInterval)).toNat
    some { s with
            t0 := tf
            controlPoints :=
              (List.range n).map
                (fun (i : ℕ) => nearestSampleValue ((tf, vf) :: rest)
                  (tf + (i : ℚ) * s.timeInterval))
            samples := (tf, vf) :: rest }

/-- The accessor `getControlPoint` as a state-passing operation: the accessor method
reads the store and leaves the spline untouched (its body,
`VectorSpaceSpline.hpp` lines 33-35, only calls `at`). -/
def getControlPointOp (i : Nat) (s : SplineState) :
    Option Vec3 × SplineState :=
  (getControlPoint s i, s)

/-- Modelled from the spec: the body of `VectorSpaceSpline::printKnots`
(declared `VectorSpaceSpline.hpp` line 27, body not in the sources).
Spec §4.3: diagnostic dump of the knot times and the control-point
count; no effect on state. The dump is embedded as the returned pair
(knot-time list, count). -/
def printKnots (s : SplineState) : (List ℚ × Nat) × SplineState :=
  (((List.range s.controlPoints.length).map
      (fun (i : ℕ) => s.t0 + (i : ℚ) * s.timeInterval),
    s.controlPoints.length), s)

/-- Streaming ingestion of an ordered batch: `addSample` applied to each
sample in order (the incremental side of the round-trip claim). -/
def processSamples (s : SplineState) (Meas : List (ℚ × Vec3)) : SplineState :=
  Meas.foldl (fun st p => addSample st p.1 p.2) s

/-- An empty spline of order `k` and interval `Δ`, as produced by the
`VectorSpaceSpline(int, double)` constructor (`VectorSpaceSpline.hpp`
line 15): no control points, no samples. -/
def emptySpline (k : Nat) (Δ : ℚ) : SplineState :=
  { splineOrder := k
    timeInterval := Δ
    t0 := 0
    controlPoints := []
    samples := [] }

/-- A concrete spline with five control points, used as the evaluation
witness for the accessor claims. -/
def exSpline : SplineState :=
  { splineOrder := 4
    timeInterval := 1/10
    t0 := 0
    controlPoints := [(0, 0, 0), (1, 0, 0), (2, 0, 0), (3, 0, 0), (4, 0, 0)]
    samples := [] }

end PoseSpline

namespace OkvisTime

/-- Cast of an integer to `uint32_t`, wrapping modulo `2^32` (the
reading the spec and the okvis sources take for the seconds-field
narrowing in `Time.hpp`). -/
def uint32cast (z : ℤ) : ℕ :=
  (z % (2 ^ 32)).toNat

/-- Embedding of `std::round`: round half away from zero, over ℚ. -/
def roundQ (x : ℚ) : ℤ :=
  if 0 ≤ x then Int.floor (x + 1 / 2) else -Int.floor (-x + 1 / 2)

/-- Storage of `TimeBase` (`Time.hpp` line 126): two `uint32_t` fields
`sec`, `nsec`, embedded as naturals (well-formed values are `< 2^32`). -/
structure Time where
  sec : ℕ
  nsec : ℕ
deriving DecidableEq

/-- Modelled from the spec: `normalizeSecNSec(uint32_t&, uint32_t&)`
(declared `Time.hpp` line 112, body not in the sources). Spec §6:
normalization carries whole seconds out of `nsec`, ensuring the
sub-second component stays within `[0, 1e9)` nanoseconds; the carry
into `sec` wraps in `uint32_t`. -/
def normalizeSecNSec (sec nsec : ℕ) : ℕ × ℕ :=
  ((sec + nsec / 10 ^ 9) % 2 ^ 32, nsec % 10 ^ 9)

/-- The `TimeBase(uint32_t _sec, uint32_t _nsec)` constructor
(`Time.hpp` lines 132-136): stores the arguments (reduced into the
`uint32_t` parameters) and calls `normalizeSecNSec(sec, nsec)`. -/
def mkTime (sec nsec : ℕ) : Time :=
  let p := normalizeSecNSec (sec % 2 ^ 32) (nsec % 2 ^ 32)
  ⟨p.1, p.2⟩

/-- Source `TimeBase::fromSec` (`Time.hpp` lines 160-164):
`sec = (uint32_t) floor(t); nsec = (uint32_t) std::round((t - sec) * 1e9)`.
No normalization is applied. The `double` arithmetic is embedded
exactly over ℚ; the unsigned casts wrap modulo `2^32`. -/
def fromSec (t : ℚ) : Time :=
  let sec : ℕ := uint32cast (Int.floor t)
  let nsec : ℕ := uint32cast (roundQ ((t - (sec : ℚ)) * 10 ^ 9))
  ⟨sec, nsec⟩

/-- Source `TimeBase::toSec` (`Time.hpp` lines 156-158):
`(double) sec + 1e-9 * (double) nsec`, embedded exactly over ℚ. -/
def toSec (a : Time) : ℚ :=
  (a.sec : ℚ) + (1 / 10 ^ 9) * (a.nsec : ℚ)

end OkvisTime

namespace PoseSpline

theorem length_iterate_initialNewControlPoint (s : SplineState) (n : Nat) :
    (initialNewControlPoint^[n] s).controlPoints.length =
      s.controlPoints.length + n := by
  induction n generalizing s with
  | zero => rfl
  | succ m ih =>
    rw [Function.iterate_succ_apply, ih]
    simp [initialNewControlPoint]
    omega

/-- C1: `isTsEvaluable(t)` returns true iff `t` lies within the closed
sub-interval of the knot axis currently bracketed by enough control
points on both sides for the active spline order; for every `t` outside
that support it returns false (no clamping or extrapolation). -/
theorem isTsEvaluable_iff_in_support (s : SplineState) (ts : ℚ) :
    isTsEvaluable s ts = true ↔
      (s.splineOrder ≤ s.controlPoints.length ∧
        ts ∈ Set.Icc (minEvaluableTime s) (maxEvaluableTime s)) := by
  simp [isTsEvaluable, Set.mem_Icc, and_assoc]

/-- C2: `getControlPoint(i)` fails with an out-of-bounds condition for
every `i ≥ getControlPointNum()` and returns the handle to control
point `i`'s storage for every `i < getControlPointNum()`. -/
theorem getControlPoint_bounds (s : SplineState) (i : Nat) :
    (getControlPointNum s ≤ i → getControlPoint s i = none) ∧
      (∀ h : i < getControlPointNum s,
        getControlPoint s i = some (s.controlPoints.get ⟨i, h⟩)) := by
  constructor
  · intro h
    exact List.get?_eq_none.mpr h
  · intro h
    exact List.get?_eq_get h

theorem getControlPoint_bounds_witness :
    getControlPoint exSpline 1000 = none ∧
      getControlPoint exSpline 2 = some ((2 : ℚ), (0 : ℚ), (0 : ℚ)) := by
  refine ⟨(getControlPoint_bounds exSpline 1000).1 (by decide), ?_⟩
  have h := (getControlPoint_bounds exSpline 2).2 (by decide)
  simpa [exSpline] using h

/-- C3: `addSample(t, v)` never decreases the control-point count, and
the count strictly increases only when `t` exceeds the previous maximum
evaluable bound. -/
theorem addSample_controlPointNum_monotone (s : SplineState) (t : ℚ) (v : Vec3) :
    getControlPointNum s ≤ getControlPointNum (addSample s t v) ∧
      (getControlPointNum s < getControlPointNum (addSample s t v) →
        maxEvaluableTime s < t) := by
  unfold addSample
  by_cases hrej : t < s.t0
  · simp [hrej]
  · simp only [hrej, if_false]
    set s1 : SplineState := { s with samples := insertSample s.samples t v } with hs1
    have hmax : maxEvaluableTime s1 = maxEvaluableTime s := rfl
    have hlen :
        (initialNewControlPoint^[numNewControlPoints s1 t] s1).controlPoints.length =
          s.controlPoints.length + numNewControlPoints s1 t := by
      rw [length_iterate_initialNewControlPoint]
    constructor
    · show getControlPointNum s ≤ _
      unfold getControlPointNum
      rw [hlen]
      omega
    · intro hlt
      unfold getControlPointNum at hlt
      rw [hlen] at hlt
      have hpos : 0 < numNewControlPoints s1 t := by omega
      unfold numNewControlPoints at hpos
      by_cases hle : t ≤ maxEvaluableTime s1
      · simp [hle] at hpos
      · rw [hmax] at hle
        exact lt_of_not_le hle

/-- C5: `initialSpline` fails cleanly exactly on an empty batch: it
produces no spline state at all (the spline is not left partially
initialized), and succeeds on every non-empty batch. -/
theorem initialSpline_empty_fails (s : SplineState) (Meas : List (ℚ × Vec3)) :
    initialSpline s Meas = none ↔ Meas = [] := by
  cases Meas with
  | nil => simp [initialSpline]
  | cons m rest => simp [initialSpline]

/-- C7: `getControlPoint(i)` is a pure read: performed twice with no
intervening mutation it returns the same value both times, and the
spline state is unchanged. -/
theorem getControlPoint_idempotent (s : SplineState) (i : Nat) :
    (getControlPointOp i ((getControlPointOp i s).2)).1 =
        (getControlPointOp i s).1 ∧
      (getControlPointOp i ((getControlPointOp i s).2)).2 = s := by
  exact ⟨rfl, rfl⟩

/-- C8: `printKnots()` has no effect on the spline's state: the
control-point count, control-point values, recorded samples and time
interval are identical before and after the call. -/
theorem printKnots_no_effect (s : SplineState) :
    getControlPointNum (printKnots s).2 = getControlPointNum s ∧
      (printKnots s).2.controlPoints = s.controlPoints ∧
      (printKnots s).2.samples = s.samples ∧
      (printKnots s).2.timeInterval = s.timeInterval ∧
      (printKnots s).2 = s := by
  exact ⟨rfl, rfl, rfl, rfl, rfl⟩

theorem iterate_initialNewControlPoint_misc (n : ℕ) (s : SplineState) :
    (initialNewControlPoint^[n] s).t0 = s.t0 ∧
      (initialNewControlPoint^[n] s).splineOrder = s.splineOrder ∧
      (initialNewControlPoint^[n] s).timeInterval = s.timeInterval ∧
      (initialNewControlPoint^[n] s).samples = s.samples := by
  induction n generalizing s with
  | zero => exact ⟨rfl, rfl, rfl, rfl⟩
  | succ m ih =>
    rw [Function.iterate_succ_apply]
    exact ih (initialNewControlPoint s)

theorem addSample_eval (s : SplineState) (t : ℚ) (v : Vec3) (n : ℕ)
    (h0 : ¬ t < s.t0)
    (hn : numNewControlPoints { s with samples := insertSample s.samples t v } t = n) :
    addSample s t v =
      initialNewControlPoint^[n]
        { s with samples := insertSample s.samples t v } := by
  unfold addSample
  rw [if_neg h0]
  show initialNewControlPoint^[numNewControlPoints
      { s with samples := insertSample s.samples t v } t]
    { s with samples := insertSample s.samples t v } = _
  rw [hn]

theorem insertSample_append (l : List (ℚ × Vec3)) (t : ℚ) (v : Vec3)
    (h : ∀ p ∈ l, p.1 < t) :
    insertSample l t v = l ++ [(t, v)] := by
  induction l with
  | nil => rfl
  | cons a l ih =>
    obtain ⟨t', v'⟩ := a
    have ha : t' < t := h (t', v') (List.mem_cons_self _ _)
    show insertSample ((t', v') :: l) t v = _
    unfold insertSample
    rw [if_neg (by linarith), if_neg (by intro he; exact absurd he (by linarith))]
    rw [ih (fun p hp => h p (List.mem_cons_of_mem _ hp))]
    simp

theorem addSample_step (s : SplineState) (t : ℚ) (v : Vec3) (T : ℚ)
    (hΔ : 0 < s.timeInterval) (hT0 : s.t0 ≤ T) (hTt : T < t)
    (hlen : s.controlPoints.length =
      s.splineOrder + (Int.ceil ((T - s.t0) / s.timeInterval)).toNat) :
    (addSample s t v).controlPoints.length =
        s.splineOrder + (Int.ceil ((t - s.t0) / s.timeInterval)).toNat ∧
      (addSample s t v).samples = insertSample s.samples t v ∧
      (addSample s t v).t0 = s.t0 ∧
      (addSample s t v).splineOrder = s.splineOrder ∧
      (addSample s t v).timeInterval = s.timeInterval := by
  have hnot : ¬ t < s.t0 := not_lt.mpr (le_trans hT0 (le_of_lt hTt))
  rw [addSample_eval s t v _ hnot rfl]
  set s1 : SplineState := { s with samples := insertSample s.samples t v } with hs1
  obtain ⟨m1, m2, m3, m4⟩ :=
    iterate_initialNewControlPoint_misc (numNewControlPoints s1 t) s1
  refine ⟨?_, m4, m1, m2, m3⟩
  set c : ℤ := Int.ceil ((T - s.t0) / s.timeInterval) with hc
  have hc0 : 0 ≤ c :=
    Int.ceil_nonneg (div_nonneg (sub_nonneg.mpr hT0) (le_of_lt hΔ))
  set e : ℤ := Int.ceil ((t - s.t0) / s.timeInterval) with he
  have hce : c ≤ e := by
    apply Int.ceil_le_ceil
    exact (div_le_div_iff_of_pos_right hΔ).mpr (by linarith)
  have hmax : maxEvaluableTime s1 = s.t0 + (c : ℚ) * s.timeInterval := by
    show s.t0 + ((s.controlPoints.length : ℚ) - (s.splineOrder : ℚ)) *
        s.timeInterval = _
    rw [hlen]
    have hcq : ((c.toNat : ℕ) : ℚ) = (c : ℚ) := by
      exact_mod_cast congrArg (fun z : ℤ => (z : ℚ)) (Int.toNat_of_nonneg hc0)
    rw [show ((s.splineOrder + c.toNat : ℕ) : ℚ) =
      (s.splineOrder : ℚ) + ((c.toNat : ℕ) : ℚ) by norm_cast]
    rw [hcq]
    ring
  have hnum : numNewControlPoints s1 t = (e - c).toNat := by
    unfold numNewControlPoints
    rw [hmax]
    by_cases ht : t ≤ s.t0 + (c : ℚ) * s.timeInterval
    · rw [if_pos ht]
      have : e ≤ c := by
        rw [he]
        apply Int.ceil_le.mpr
        rw [div_le_iff₀ hΔ]
        linarith
      omega
    · rw [if_neg ht]
      have harg : (t - (s.t0 + (c : ℚ) * s.timeInterval)) / s.timeInterval =
          (t - s.t0) / s.timeInterval - (c : ℚ) := by
        field_simp
        ring
      rw [harg]
      rw [show ((c : ℚ)) = (((c : ℤ)) : ℚ) from rfl, Int.ceil_sub_int]
  rw [length_iterate_initialNewControlPoint, hnum]
  have hlen1 : s1.controlPoints.length = s.splineOrder + c.toNat := hlen
  rw [hlen1]
  omega

theorem processSamples_inv (l : List (ℚ × Vec3)) :
    ∀ (s : SplineState) (T : ℚ),
      0 < s.timeInterval → s.t0 ≤ T →
      List.Chain (fun a b => a < b) T (l.map Prod.fst) →
      (∀ p ∈ s.samples, p.1 ≤ T) →
      s.controlPoints.length =
        s.splineOrder + (Int.ceil ((T - s.t0) / s.timeInterval)).toNat →
      (processSamples s l).t0 = s.t0 ∧
        (processSamples s l).splineOrder = s.splineOrder ∧
        (processSamples s l).timeInterval = s.timeInterval ∧
        (processSamples s l).samples = s.samples ++ l ∧
        (processSamples s l).controlPoints.length =
          s.splineOrder +
            (Int.ceil (((l.map Prod.fst).getLastD T - s.t0) /
              s.timeInterval)).toNat := by
  induction l with
  | nil =>
    intro s T hΔ hT0 hchain hkeys hlen
    refine ⟨rfl, rfl, rfl, (List.append_nil s.samples).symm, ?_⟩
    exact hlen
  | cons p l ih =>
    intro s T hΔ hT0 hchain hkeys hlen
    obtain ⟨t, v⟩ := p
    rw [List.map_cons, List.chain_cons] at hchain
    obtain ⟨hTt, hchain2⟩ := hchain
    obtain ⟨hL, hS, hT02, hK, hD⟩ := addSample_step s t v T hΔ hT0 hTt hlen
    have hkeyslt : ∀ p ∈ s.samples, p.1 < t :=
      fun p hp => lt_of_le_of_lt (hkeys p hp) hTt
    have hSapp : (addSample s t v).samples = s.samples ++ [(t, v)] := by
      rw [hS, insertSample_append s.samples t v hkeyslt]
    have hstep : processSamples s ((t, v) :: l) =
        processSamples (addSample s t v) l := rfl
    have hmain := ih (addSample s t v) t
      (by rw [hD]; exact hΔ)
      (by rw [hT02]; exact le_of_lt (lt_of_le_of_lt hT0 hTt))
      hchain2
      (by
        intro p hp
        rw [hSapp] at hp
        rcases List.mem_append.mp hp with h1 | h2
        · exact le_of_lt (hkeyslt p h1)
        · rcases List.mem_singleton.mp h2 with rfl
          exact le_refl t)
      (by rw [hL, hT02, hK, hD])
    obtain ⟨g1, g2, g3, g4, g5⟩ := hmain
    rw [hstep]
    refine ⟨by rw [g1, hT02], by rw [g2, hK], by rw [g3, hD], ?_, ?_⟩
    · rw [g4, hSapp, List.append_assoc]
      rfl
    · rw [g5, hK, hT02, hD, List.map_cons, List.getLastD_cons]

theorem first_sample_step (k : ℕ) (Δ t0 : ℚ) (v : Vec3)
    (hΔ : 0 < Δ) (hk : 1 ≤ k) :
    (addSample (initialSplineKnot (emptySpline k Δ) t0) t0 v).controlPoints.length = k ∧
      (addSample (initialSplineKnot (emptySpline k Δ) t0) t0 v).samples = [(t0, v)] ∧
      (addSample (initialSplineKnot (emptySpline k Δ) t0) t0 v).t0 = t0 ∧
      (addSample (initialSplineKnot (emptySpline k Δ) t0) t0 v).splineOrder = k ∧
      (addSample (initialSplineKnot (emptySpline k Δ) t0) t0 v).timeInterval = Δ := by
  have hA : initialSplineKnot (emptySpline k Δ) t0 =
      ⟨k, Δ, t0, [zeroVec], []⟩ := rfl
  rw [hA]
  rw [addSample_eval _ _ _ _ (lt_irrefl t0) rfl]
  set s1 : SplineState := ⟨k, Δ, t0, [zeroVec], insertSample [] t0 v⟩ with hs1
  obtain ⟨m1, m2, m3, m4⟩ :=
    iterate_initialNewControlPoint_misc (numNewControlPoints s1 t0) s1
  have hnum : numNewControlPoints s1 t0 = k - 1 := by
    unfold numNewControlPoints
    have hmax : maxEvaluableTime s1 = t0 + ((1 : ℚ) - k) * Δ := rfl
    rw [hmax]
    rcases Nat.lt_or_ge 1 k with hgt | hle
    · rw [if_neg (by
        intro hcon
        have h1k : ((1 : ℚ) - k) * Δ < 0 :=
          mul_neg_of_neg_of_pos (by
            have hq : (1 : ℚ) < k := by exact_mod_cast hgt
            linarith) hΔ
        linarith)]
      have harg : (t0 - (t0 + ((1 : ℚ) - k) * Δ)) / Δ = (k : ℚ) - 1 := by
        field_simp
        ring
      rw [harg]
      rw [show ((k : ℚ) - 1) = (((k : ℤ) - 1 : ℤ) : ℚ) by push_cast; ring]
      rw [Int.ceil_intCast]
      omega
    · have hk1 : k = 1 := le_antisymm hle hk
      subst hk1
      rw [if_pos (by norm_num)]
  refine ⟨?_, ?_, ?_, ?_, ?_⟩
  · rw [length_iterate_initialNewControlPoint, hnum]
    show 1 + (k - 1) = k
    omega
  · rw [m4]
    rfl
  · rw [m1]
  · rw [m2]
  · rw [m3]

theorem fst_getLastD (l : List (ℚ × Vec3)) (d : ℚ × Vec3) :
    (l.getLastD d).1 = (l.map Prod.fst).getLastD d.1 := by
  induction l generalizing d with
  | nil => rfl
  | cons a l ih =>
    rw [List.getLastD_cons, ih a, List.map_cons, List.getLastD_cons]

/-- C4 counterexample: on the ordered batch
`[(0, (1,0,0)), (1, (2,0,0))]` with order 3 and interval 1, seeding via
`initialSplineKnot(0)` followed by `addSample` on each sample yields the
control points `[0, (1,0,0), (1,0,0), (2,0,0)]` (bootstrap seed, then
most-recent-sample seeds), while one call to `initialSpline` yields
`[(1,0,0), (2,0,0), (2,0,0), (2,0,0)]` (nearest-sample seeds): the
control-point values differ, refuting observable equality of values. -/
theorem roundtrip_values_counterexample :
    (processSamples (initialSplineKnot (emptySpline 3 1) 0)
        [((0 : ℚ), ((1 : ℚ), (0 : ℚ), (0 : ℚ))),
          ((1 : ℚ), ((2 : ℚ), (0 : ℚ), (0 : ℚ)))]).controlPoints ≠
      (Option.getD (initialSpline (emptySpline 3 1)
        [((0 : ℚ), ((1 : ℚ), (0 : ℚ), (0 : ℚ))),
          ((1 : ℚ), ((2 : ℚ), (0 : ℚ), (0 : ℚ)))])
        (emptySpline 3 1)).controlPoints := by
  have h1 : addSample ⟨3, 1, 0, [zeroVec], []⟩ 0 ((1 : ℚ), (0 : ℚ), (0 : ℚ)) =
      ⟨3, 1, 0, [zeroVec, (1, 0, 0), (1, 0, 0)],
        [(0, ((1 : ℚ), (0 : ℚ), (0 : ℚ)))]⟩ := by
    rw [addSample_eval _ _ _ 2 (by norm_num)
      (by norm_num [numNewControlPoints, maxEvaluableTime]; try decide)]
    rfl
  have h2 : addSample
      ⟨3, 1, 0, [zeroVec, (1, 0, 0), (1, 0, 0)],
        [(0, ((1 : ℚ), (0 : ℚ), (0 : ℚ)))]⟩ 1 ((2 : ℚ), (0 : ℚ), (0 : ℚ)) =
      ⟨3, 1, 0, [zeroVec, (1, 0, 0), (1, 0, 0), (2, 0, 0)],
        [(0, ((1 : ℚ), (0 : ℚ), (0 : ℚ))), (1, ((2 : ℚ), (0 : ℚ), (0 : ℚ)))]⟩ := by
    rw [addSample_eval _ _ _ 1 (by norm_num)
      (by norm_num [numNewControlPoints, maxEvaluableTime]; try decide)]
    rfl
  have hinc : processSamples (initialSplineKnot (emptySpline 3 1) 0)
      [((0 : ℚ), ((1 : ℚ), (0 : ℚ), (0 : ℚ))),
        ((1 : ℚ), ((2 : ℚ), (0 : ℚ), (0 : ℚ)))] =
      ⟨3, 1, 0, [zeroVec, (1, 0, 0), (1, 0, 0), (2, 0, 0)],
        [(0, ((1 : ℚ), (0 : ℚ), (0 : ℚ))), (1, ((2 : ℚ), (0 : ℚ), (0 : ℚ)))]⟩ := by
    show addSample (addSample ⟨3, 1, 0, [zeroVec], []⟩ 0 ((1 : ℚ), (0 : ℚ), (0 : ℚ)))
        1 ((2 : ℚ), (0 : ℚ), (0 : ℚ)) = _
    rw [h1, h2]
  have hbat : initialSpline (emptySpline 3 1)
      [((0 : ℚ), ((1 : ℚ), (0 : ℚ), (0 : ℚ))),
        ((1 : ℚ), ((2 : ℚ), (0 : ℚ), (0 : ℚ)))] =
      some ⟨3, 1, 0, [(1, 0, 0), (2, 0, 0), (2, 0, 0), (2, 0, 0)],
        [(0, ((1 : ℚ), (0 : ℚ), (0 : ℚ))), (1, ((2 : ℚ), (0 : ℚ), (0 : ℚ)))]⟩ := by
    simp only [initialSpline, emptySpline, List.getLastD_cons, List.getLastD_nil]
    rw [show (3 + (Int.ceil (((1 : ℚ) - 0) / 1)).toNat) = 4 by norm_num]
    rw [show List.range 4 = [0, 1, 2, 3] by decide]
    norm_num [nearestSampleValue, absQ, zeroVec]
  rw [hinc, hbat]
  decide

/-- C4 (amended): seeding an empty spline via `initialSplineKnot(t0)`
and then calling `addSample` on each sample of an ordered batch in
order matches one call of `initialSpline` on the batch in control-point
COUNT, recorded samples and knot origin; the control-point VALUES may
differ between the two paths, because the incremental path seeds
bootstrap/extension points by the most-recent-sample policy (with a
sample-free bootstrap) while the batch path seeds each knot from its
nearest sample. -/
theorem roundtrip_observable (k : ℕ) (Δ t0 : ℚ) (v0 : Vec3)
    (rest : List (ℚ × Vec3)) (hk : 1 ≤ k) (hΔ : 0 < Δ)
    (hchain : List.Chain (fun a b => a < b) t0 (rest.map Prod.fst)) :
    ∃ bat, initialSpline (emptySpline k Δ) ((t0, v0) :: rest) = some bat ∧
      getControlPointNum (processSamples (initialSplineKnot (emptySpline k Δ) t0)
          ((t0, v0) :: rest)) = getControlPointNum bat ∧
      (processSamples (initialSplineKnot (emptySpline k Δ) t0)
          ((t0, v0) :: rest)).samples = bat.samples ∧
      (processSamples (initialSplineKnot (emptySpline k Δ) t0)
          ((t0, v0) :: rest)).t0 = bat.t0 := by
  obtain ⟨f1, f2, f3, f4, f5⟩ := first_sample_step k Δ t0 v0 hΔ hk
  set A : SplineState := initialSplineKnot (emptySpline k Δ) t0 with hA
  set s1 : SplineState := addSample A t0 v0 with hs1
  have hinv := processSamples_inv rest s1 t0
    (by rw [f5]; exact hΔ)
    (by rw [f3])
    hchain
    (by
      intro p hp
      rw [f2] at hp
      rcases List.mem_singleton.mp hp with rfl
      exact le_refl t0)
    (by
      rw [f1, f3, f4, f5]
      simp)
  obtain ⟨g1, g2, g3, g4, g5⟩ := hinv
  have hstep : processSamples A ((t0, v0) :: rest) = processSamples s1 rest := rfl
  refine ⟨_, rfl, ?_, ?_, ?_⟩
  · show getControlPointNum (processSamples A ((t0, v0) :: rest)) = _
    rw [hstep]
    unfold getControlPointNum
    rw [g5, f4, f3, f5]
    rw [fst_getLastD ((t0, v0) :: rest) (t0, v0), List.map_cons,
      List.getLastD_cons]
    simp [emptySpline]
  · rw [hstep, g4, f2]
    rfl
  · rw [hstep, g1, f3]

theorem roundtrip_observable_witness :
    ∃ bat, initialSpline (emptySpline 1 1) [((0 : ℚ), zeroVec)] = some bat ∧
      getControlPointNum (processSamples (initialSplineKnot (emptySpline 1 1) 0)
          [((0 : ℚ), zeroVec)]) = getControlPointNum bat ∧
      (processSamples (initialSplineKnot (emptySpline 1 1) 0)
          [((0 : ℚ), zeroVec)]).samples = bat.samples ∧
      (processSamples (initialSplineKnot (emptySpline 1 1) 0)
          [((0 : ℚ), zeroVec)]).t0 = bat.t0 :=
  roundtrip_observable 1 1 0 zeroVec [] (by norm_num) (by norm_num)
    List.Chain.nil


end PoseSpline

namespace OkvisTime

/-- C6 counterexample: `fromSec` applies no normalization, and for
`t = 0.9999999996` the fractional part rounds up to a full second, so
the stored `nsec` equals `10^9`, outside `[0, 1e9)`. -/
theorem fromSec_not_normalized_counterexample :
    (fromSec ((9999999996 : ℚ) / 10000000000)).nsec = 1000000000 ∧
      ¬ ((fromSec ((9999999996 : ℚ) / 10000000000)).nsec < 10 ^ 9) := by
  have hfl : Int.floor ((9999999996 : ℚ) / 10000000000) = 0 := by
    rw [Int.floor_eq_iff]; norm_num
  have hsec0 : uint32cast (0 : ℤ) = 0 := by
    unfold uint32cast
    norm_num
  have hnsec : (fromSec ((9999999996 : ℚ) / 10000000000)).nsec = 1000000000 := by
    show uint32cast (roundQ (((9999999996 : ℚ) / 10000000000 -
      ((uint32cast (Int.floor ((9999999996 : ℚ) / 10000000000)) : ℕ) : ℚ)) *
        10 ^ 9)) = 1000000000
    rw [hfl, hsec0]
    have hx : ((9999999996 : ℚ) / 10000000000 - ((0 : ℕ) : ℚ)) * 10 ^ 9 =
        9999999996 / 10 := by
      norm_num
    rw [hx]
    have hround : roundQ ((9999999996 : ℚ) / 10) = 1000000000 := by
      unfold roundQ
      rw [if_pos (by norm_num)]
      rw [Int.floor_eq_iff]; norm_num
    rw [hround]
    unfold uint32cast
    norm_num
    decide
  exact ⟨hnsec, by omega⟩

/-- C6 (amended): every `Time` produced by the `(sec, nsec)` constructor
is normalized (`nsec ∈ [0, 1e9)`), while `fromSec` only guarantees
`nsec ≤ 1e9` for `t` in the representable range `[0, 2^32)` — the value
`nsec = 1e9` is attained when the fractional part rounds up. -/
theorem mkTime_normalized_fromSec_bounded (sec nsec : ℕ) (t : ℚ)
    (h0 : 0 ≤ t) (h1 : t < 2 ^ 32) :
    (mkTime sec nsec).nsec < 10 ^ 9 ∧ (fromSec t).nsec ≤ 10 ^ 9 := by
  constructor
  · show (nsec % 2 ^ 32) % 10 ^ 9 < 10 ^ 9
    exact Nat.mod_lt _ (by norm_num)
  · have hF0 : (0 : ℤ) ≤ Int.floor t := Int.floor_nonneg.mpr h0
    have hFlt : Int.floor t < 2 ^ 32 := by
      have := Int.floor_lt.mpr (show t < ((2 ^ 32 : ℤ) : ℚ) by exact_mod_cast h1)
      exact this
    have hmod : Int.floor t % 2 ^ 32 = Int.floor t :=
      Int.emod_eq_of_lt hF0 hFlt
    have hsec : (fromSec t).sec = (Int.floor t).toNat := by
      show uint32cast (Int.floor t) = (Int.floor t).toNat
      unfold uint32cast
      rw [hmod]
    have hsecQ : (((fromSec t).sec : ℕ) : ℚ) = ((Int.floor t : ℤ) : ℚ) := by
      rw [hsec]
      exact_mod_cast congrArg (fun z : ℤ => (z : ℚ)) (Int.toNat_of_nonneg hF0)
    have hfr0 : (0 : ℚ) ≤ t - ((Int.floor t : ℤ) : ℚ) :=
      sub_nonneg.mpr (Int.floor_le t)
    have hfr1 : t - ((Int.floor t : ℤ) : ℚ) < 1 := by
      have := Int.lt_floor_add_one t
      linarith
    have hy0 : (0 : ℚ) ≤ (t - ((Int.floor t : ℤ) : ℚ)) * 10 ^ 9 := by positivity
    have hy1 : (t - ((Int.floor t : ℤ) : ℚ)) * 10 ^ 9 < 10 ^ 9 := by nlinarith
    have hr0 : (0 : ℤ) ≤ roundQ ((t - ((Int.floor t : ℤ) : ℚ)) * 10 ^ 9) := by
      unfold roundQ
      rw [if_pos hy0]
      exact Int.floor_nonneg.mpr (by linarith)
    have hr1 : roundQ ((t - ((Int.floor t : ℤ) : ℚ)) * 10 ^ 9) ≤ 10 ^ 9 := by
      unfold roundQ
      rw [if_pos hy0]
      have hlt : Int.floor ((t - ((Int.floor t : ℤ) : ℚ)) * 10 ^ 9 + 1 / 2) <
          10 ^ 9 + 1 := by
        apply Int.floor_lt.mpr
        push_cast
        linarith
      omega
    have hnsec : (fromSec t).nsec =
        (roundQ ((t - ((Int.floor t : ℤ) : ℚ)) * 10 ^ 9)).toNat := by
      show uint32cast (roundQ ((t - (((fromSec t).sec : ℕ) : ℚ)) * 10 ^ 9)) = _
      rw [hsecQ]
      unfold uint32cast
      rw [Int.emod_eq_of_lt hr0 (by omega)]
    rw [hnsec]
    omega

theorem mkTime_normalized_fromSec_bounded_witness :
    (mkTime 5 3000000000).nsec < 10 ^ 9 ∧ (fromSec 0).nsec ≤ 10 ^ 9 :=
  mkTime_normalized_fromSec_bounded 5 3000000000 0 (by norm_num) (by norm_num)

/-- C10: timestamps before the epoch are not representable — for every
negative `t`, `fromSec` stores `floor(t)` wrapped modulo `2^32` into
the unsigned seconds field (so the stored seconds differ from
`floor(t)`), and `toSec` on the result, being non-negative, does not
recover `t`. -/
theorem fromSec_negative_wraps (t : ℚ) (h : t < 0) :
    ((fromSec t).sec : ℤ) = Int.floor t % 2 ^ 32 ∧
      ((fromSec t).sec : ℤ) ≠ Int.floor t ∧
      0 ≤ toSec (fromSec t) ∧ toSec (fromSec t) ≠ t := by
  have hFneg : Int.floor t < 0 :=
    Int.floor_lt.mpr (by exact_mod_cast h)
  have hsec : ((fromSec t).sec : ℤ) = Int.floor t % 2 ^ 32 := by
    show (((Int.floor t % 2 ^ 32).toNat : ℕ) : ℤ) = Int.floor t % 2 ^ 32
    exact Int.toNat_of_nonneg (Int.emod_nonneg _ (by norm_num))
  have h0 : (0 : ℚ) ≤ toSec (fromSec t) := by
    unfold toSec
    positivity
  refine ⟨hsec, ?_, h0, ?_⟩
  · rw [hsec]
    have : 0 ≤ Int.floor t % 2 ^ 32 := Int.emod_nonneg _ (by norm_num)
    omega
  · intro heq
    rw [heq] at h0
    linarith

theorem fromSec_negative_wraps_witness :
    ((fromSec (-1 : ℚ)).sec : ℤ) = Int.floor (-1 : ℚ) % 2 ^ 32 ∧
      ((fromSec (-1 : ℚ)).sec : ℤ) ≠ Int.floor (-1 : ℚ) ∧
      0 ≤ toSec (fromSec (-1 : ℚ)) ∧ toSec (fromSec (-1 : ℚ)) ≠ (-1 : ℚ) :=
  fromSec_negative_wraps (-1) (by norm_num)

end OkvisTime
